import Mathlib

/-!
Shallow embedding of the binary-search service (`app/services.py`,
`app/database.py`) and proofs about its claimed properties.

Modelling conventions:
* Python `int` is `Int`; Python floats (search timings) are modelled as `ℚ`
  so that averaging is exact arithmetic.
* Optional integer parameters (`size: int = None`, ...) are `Option Int`;
  Python's `x or default` truthiness convention (both `None` and `0` fall
  back to the default) is `pyOr`.
* The Redis store is a record holding the two keys the code uses: an
  optional array and an optional metadata record.  `load_array` returning
  `None`/absent is `Option`; Python's `if not array:` is `pyFalsyArray`
  (true on an absent or empty array).  A stored metadata value is a
  dictionary written by the code (six fixed keys); its `source` key is
  modelled as `Option String` so that `metadata.get("source", "unknown")`
  is expressible on stores where the key is absent.
* The global `random` module is an abstract pseudo-random generator: a
  state type `σ` with `seedFn` (the effect of `random.seed(s)`) and
  `randint` (one draw, returning the value and the successor state).  The
  service operations thread this state explicitly.
* `datetime.now().isoformat()` is an external input; operations that write
  metadata take the current timestamp string as a parameter `now`.
* Fallible operations return `Except String`; the single `ValueError`
  raised by `_generate_array` carries the source's message.
* Index errors from Python's `array[0]` / `array[-1]` on an empty list are
  modelled by `searchImpl` returning `none`.
-/

namespace BinarySearchApp

/-- Python `p or d` for an optional integer parameter: `None` and `0` are
falsy and fall back to the default `d`. -/
def pyOr (p : Option Int) (d : Int) : Int :=
  match p with
  | none => d
  | some v => if v = 0 then d else v

/-- Python `if not array:` on the result of `load_array`: true when the key
is absent or the stored list is empty. -/
def pyFalsyArray : Option (List Int) → Bool
  | none => true
  | some a => a.isEmpty

/-- The metadata dictionary written next to the array
(`save_array_metadata` callers build it with these keys).  The `source`
key is optional so that `metadata.get("source", "unknown")` can be stated
on arbitrary store contents. -/
structure Metadata where
  size : Nat
  min_value : Int
  max_value : Int
  seed : Int
  generated_at : String
  source : Option String
deriving Repr, DecidableEq

/-- The two Redis keys used by `RedisDatabase`: `binary_search:array` and
`binary_search:metadata`. -/
structure Store where
  array : Option (List Int)
  metadata : Option Metadata
deriving Repr, DecidableEq

/-- The mutable defaults held on the `BinarySearchService` instance. -/
structure ServiceState where
  array_size : Int
  min_value : Int
  max_value : Int
  seed : Int
deriving Repr, DecidableEq

/-- `BinarySearchService.__init__` defaults. -/
def initState : ServiceState :=
  { array_size := 100, min_value := 1, max_value := 1000, seed := 42 }

/-- Abstract model of the `random` module: `seedFn` is `random.seed`,
`randint g lo hi` is one `random.randint(lo, hi)` call from state `g`. -/
structure RandomModel (σ : Type) where
  seedFn : Int → σ
  randint : σ → Int → Int → Int × σ

/-- Whole-system state: service defaults, store contents and the global
pseudo-random generator state. -/
structure World (σ : Type) where
  service : ServiceState
  store : Store
  rand : σ

/-- `[random.randint(lo, hi) for _ in range(n)]`: `n` successive draws,
threading the generator state. -/
def drawList (R : RandomModel σ) (lo hi : Int) : Nat → σ → List Int × σ
  | 0, g => ([], g)
  | n + 1, g =>
    let p := R.randint g lo hi
    let q := drawList R lo hi n p.2
    (p.1 :: q.1, q.2)

/-- Python `sorted(array)`: a stable ascending sort (modelled with
insertion sort, which is stable and sorts non-decreasingly, like
CPython's timsort). -/
def pySorted (l : List Int) : List Int :=
  List.insertionSort (· ≤ ·) l

/-- `BinarySearchService._generate_array(size, min_val, max_val, seed)`.
Each parameter falls back to the stored default when absent or falsy;
validation happens before the generator is reseeded. -/
def generateArray (R : RandomModel σ) (s : ServiceState) (g : σ)
    (size min_val max_val seed : Option Int) : Except String (List Int × σ) :=
  let sizeV := pyOr size s.array_size
  let minV := pyOr min_val s.min_value
  let maxV := pyOr max_val s.max_value
  let seedV := pyOr seed s.seed
  if minV ≥ maxV then
    Except.error "min_value must be less than max_value"
  else
    let d := drawList R minV maxV sizeV.toNat (R.seedFn seedV)
    Except.ok (pySorted d.1, d.2)

/-- `BinarySearchService._binary_search` loop.  `left`/`right` are Python
ints (`right` starts at `len(arr) - 1`, possibly `-1`); the midpoint uses
Python floor division `//`.  The access `arr[mid]` is in range in every
reachable call (the correctness lemmas carry that invariant); out-of-range
reads default to `0`. -/
def binarySearchAux (arr : List Int) (target : Int) (left right : Int) : Int :=
  if _h : left ≤ right then
    if arr.getD (Int.fdiv (left + right) 2).toNat 0 = target then
      Int.fdiv (left + right) 2
    else if arr.getD (Int.fdiv (left + right) 2).toNat 0 < target then
      binarySearchAux arr target (Int.fdiv (left + right) 2 + 1) right
    else
      binarySearchAux arr target left (Int.fdiv (left + right) 2 - 1)
  else
    -1
termination_by (right + 1 - left).toNat
decreasing_by
  all_goals
    rw [Int.fdiv_eq_ediv _ (by norm_num : (0 : Int) ≤ 2)] at *
    omega

/-- `self._binary_search(array, value)` as called from `search`. -/
def binarySearch (arr : List Int) (target : Int) : Int :=
  binarySearchAux arr target 0 ((arr.length : Int) - 1)

/-- The dictionary returned by `BinarySearchService.search`. -/
structure SearchOutcome where
  found : Bool
  index : Int
  value : Int
  array_size : Nat
  array_min : Int
  array_max : Int
deriving Repr, DecidableEq

/-- The pure part of `BinarySearchService.search` once the array has been
obtained: boundary pre-check, then the binary-search loop.  `none` models
the `IndexError` that Python's `array[0]` / `array[-1]` would raise on an
empty array. -/
def searchImpl (arr : List Int) (value : Int) : Option SearchOutcome :=
  if h : arr = [] then
    none
  else
    if value < arr.head h ∨ value > arr.getLast h then
      some { found := false, index := -1, value := value,
             array_size := arr.length,
             array_min := arr.head h, array_max := arr.getLast h }
    else
      some { found := binarySearch arr value != -1,
             index := binarySearch arr value, value := value,
             array_size := arr.length,
             array_min := arr.head h, array_max := arr.getLast h }

/-- Modelled from the spec: the same search with the boundary pre-check
removed, "running the plain binary search loop alone".  Used only to
compare against `searchImpl`. -/
def searchNoPrecheck (arr : List Int) (value : Int) : Option SearchOutcome :=
  if h : arr = [] then
    none
  else
    some { found := binarySearch arr value != -1,
           index := binarySearch arr value, value := value,
           array_size := arr.length,
           array_min := arr.head h, array_max := arr.getLast h }

/-- `BinarySearchService.initialize_array`: load, and when the loaded
value is falsy generate with the stored defaults, persist array and
metadata (source `"generated"`), and return the array. -/
def initialize_array (R : RandomModel σ) (now : String) (w : World σ) :
    Except String (List Int × World σ) :=
  if pyFalsyArray w.store.array then
    match generateArray R w.service w.rand none none none none with
    | Except.error e => Except.error e
    | Except.ok (array, g2) =>
      Except.ok (array,
        { w with
          rand := g2,
          store :=
            { array := some array,
              metadata := some
                { size := array.length,
                  min_value := w.service.min_value,
                  max_value := w.service.max_value,
                  seed := w.service.seed,
                  generated_at := now,
                  source := some "generated" } } })
  else
    Except.ok (w.store.array.getD [], w)

/-- `BinarySearchService.get_array`: load, initialize when the loaded
value is falsy. -/
def get_array (R : RandomModel σ) (now : String) (w : World σ) :
    Except String (List Int × World σ) :=
  if pyFalsyArray w.store.array then
    initialize_array R now w
  else
    Except.ok (w.store.array.getD [], w)

/-- `BinarySearchService.get_array_source`:
`metadata.get("source", "unknown") if metadata else "generated"`. -/
def get_array_source (st : Store) : String :=
  match st.metadata with
  | some m => m.source.getD "unknown"
  | none => "generated"

/-- `BinarySearchService.search`: obtain the array via `get_array`, then
run the boundary pre-check and binary-search loop on it. -/
def search (R : RandomModel σ) (now : String) (w : World σ) (value : Int) :
    Except String (Option SearchOutcome × World σ) :=
  match get_array R now w with
  | Except.error e => Except.error e
  | Except.ok (array, w2) => Except.ok (searchImpl array value, w2)

/-- `BinarySearchService.reset_array`: update each stored default that was
supplied truthy, then regenerate (which may raise), then persist array and
metadata (source `"regenerated"`).  The returned pair is the post-state
together with the normal/`ValueError` outcome: on error the defaults have
already been mutated but the store is untouched. -/
def reset_array (R : RandomModel σ) (now : String) (w : World σ)
    (size min_value max_value seed : Option Int) :
    World σ × Except String Unit :=
  let s1 : ServiceState :=
    { array_size := pyOr size w.service.array_size,
      min_value := pyOr min_value w.service.min_value,
      max_value := pyOr max_value w.service.max_value,
      seed := pyOr seed w.service.seed }
  match generateArray R s1 w.rand size min_value max_value seed with
  | Except.error e => ({ w with service := s1 }, Except.error e)
  | Except.ok (array, g2) =>
    ({ service := s1,
       rand := g2,
       store :=
         { array := some array,
           metadata := some
             { size := array.length,
               min_value := pyOr min_value s1.min_value,
               max_value := pyOr max_value s1.max_value,
               seed := pyOr seed s1.seed,
               generated_at := now,
               source := some "regenerated" } } },
     Except.ok ())

/-- Python dict read with default 0: `m.get(k, 0)`. -/
def dictGet {α : Type} [DecidableEq α] (m : List (α × Nat)) (k : α) : Nat :=
  match m.find? (fun p => p.1 = k) with
  | some p => p.2
  | none => 0

/-- Python dict write `m[k] = v`: an existing key keeps its position, a
new key is appended (insertion order, as in CPython dicts). -/
def dictSet {α : Type} [DecidableEq α] (m : List (α × Nat)) (k : α) (v : Nat) :
    List (α × Nat) :=
  if m.any (fun p => p.1 = k) then
    m.map (fun p => if p.1 = k then (k, v) else p)
  else
    m ++ [(k, v)]

/-- The `_search_stats` dictionary. -/
structure SearchStats where
  total_searches : Nat
  successful_searches : Nat
  failed_searches : Nat
  search_times : List ℚ
  value_counts : List (Int × Nat)
  daily_counts : List (String × Nat)
deriving Repr, DecidableEq

/-- `_search_stats` as set up in `__init__`. -/
def initStats : SearchStats :=
  { total_searches := 0, successful_searches := 0, failed_searches := 0,
    search_times := [], value_counts := [], daily_counts := [] }

/-- `BinarySearchService.track_search(value, found, search_time)`;
`today` is the external `date.today().isoformat()`. -/
def track_search (st : SearchStats) (today : String) (value : Int)
    (found : Bool) (search_time : ℚ) : SearchStats :=
  let st1 := { st with total_searches := st.total_searches + 1 }
  let st2 :=
    if found then
      { st1 with successful_searches := st1.successful_searches + 1 }
    else
      { st1 with failed_searches := st1.failed_searches + 1 }
  let st3 := { st2 with search_times := st2.search_times ++ [search_time] }
  let st4 :=
    { st3 with value_counts :=
        dictSet st3.value_counts value (dictGet st3.value_counts value + 1) }
  let st5 :=
    { st4 with daily_counts :=
        dictSet st4.daily_counts today (dictGet st4.daily_counts today + 1) }
  if st5.search_times.length > 1000 then
    { st5 with search_times := st5.search_times.drop 1 }
  else
    st5

/-- Python `max(items, key=...)`: the first item attaining the maximal
count (a strictly greater count replaces the current best). -/
def firstMaxBy (l : List (Int × Nat)) : Option Int :=
  match l with
  | [] => none
  | x :: xs =>
    some (xs.foldl (fun best p => if p.2 > best.2 then p else best) x).1

/-- The dictionary returned by `BinarySearchService.get_statistics`. -/
structure StatsSnapshot where
  total_searches : Nat
  successful_searches : Nat
  failed_searches : Nat
  search_times : List ℚ
  value_counts : List (Int × Nat)
  daily_counts : List (String × Nat)
  average_search_time_ms : ℚ
  most_searched_value : Option Int
  searches_today : Nat
deriving Repr, DecidableEq

/-- `BinarySearchService.get_statistics`. -/
def get_statistics (st : SearchStats) (today : String) : StatsSnapshot :=
  { total_searches := st.total_searches,
    successful_searches := st.successful_searches,
    failed_searches := st.failed_searches,
    search_times := st.search_times,
    value_counts := st.value_counts,
    daily_counts := st.daily_counts,
    average_search_time_ms :=
      if ¬ st.search_times.isEmpty then
        st.search_times.sum / (st.search_times.length : ℚ)
      else 0,
    most_searched_value :=
      if ¬ st.value_counts.isEmpty then firstMaxBy st.value_counts else none,
    searches_today := dictGet st.daily_counts today }

/-- One `track_search` call's arguments. -/
structure SearchRecord where
  today : String
  value : Int
  found : Bool
  search_time : ℚ
deriving Repr, DecidableEq

/-- Replay a sequence of `track_search` calls from the initial stats. -/
def recordAll (recs : List SearchRecord) : SearchStats :=
  recs.foldl
    (fun st r => track_search st r.today r.value r.found r.search_time)
    initStats

/-- A concrete instantiation of the abstract pseudo-random generator, used
to evaluate the state-machine definitions on closed inputs: the state is a
counter, and a draw alternates between the two bounds. -/
def demoRand : RandomModel Nat :=
  { seedFn := fun s => s.toNat,
    randint := fun g lo hi => (if g % 2 = 0 then hi else lo, g + 1) }

/-- Two concrete recordings used to evaluate the statistics claims on
closed inputs. -/
def demoRecs : List SearchRecord :=
  [{ today := "d", value := 5, found := true, search_time := 2 },
   { today := "d", value := 6, found := false, search_time := 4 }]

/-- Whether a fallible operation raised (the only raise in the service is
the `ValueError` from `_generate_array`). -/
def isErr {α : Type} : Except String α → Bool
  | Except.error _ => true
  | Except.ok _ => false

/-! ### Concrete states used to evaluate the claims on closed inputs -/

/-- A concrete metadata record as the service would write it. -/
def demoMeta : Metadata :=
  { size := 2, min_value := 1, max_value := 10, seed := 7,
    generated_at := "t", source := some "generated" }

/-- A concrete metadata record whose dictionary lacks the `source` key. -/
def demoMetaNoSource : Metadata :=
  { size := 1, min_value := 1, max_value := 10, seed := 1,
    generated_at := "t", source := none }

/-- A concrete metadata record with the reset-path source tag. -/
def demoMetaRegen : Metadata :=
  { size := 2, min_value := 1, max_value := 10, seed := 1,
    generated_at := "t", source := some "regenerated" }

/-- A store holding a non-empty array and full metadata. -/
def demoStoreFull : Store :=
  { array := some [1, 2], metadata := some demoMeta }

/-- A store with both keys absent. -/
def demoStoreEmpty : Store :=
  { array := none, metadata := none }

/-- A populated world with service defaults. -/
def demoWorldFull : World Nat :=
  { service := initState, store := demoStoreFull, rand := 0 }

/-- An empty-store world with service defaults. -/
def demoWorldEmpty : World Nat :=
  { service := initState, store := demoStoreEmpty, rand := 0 }

/-! ### Helper lemmas -/

/-- Applying the falsy-default convention against an already-updated
default changes nothing: `pyOr p (pyOr p d) = pyOr p d`. -/
theorem pyOr_pyOr (p : Option Int) (d : Int) : pyOr p (pyOr p d) = pyOr p d := by
  cases p with
  | none => rfl
  | some v =>
    by_cases h : v = 0 <;> simp [pyOr, h]

/-- `_generate_array` raises exactly when the effective minimum is not
below the effective maximum. -/
theorem generateArray_isErr (R : RandomModel σ) (s : ServiceState) (g : σ)
    (size min_val max_val seed : Option Int) :
    isErr (generateArray R s g size min_val max_val seed) = true ↔
      pyOr min_val s.min_value ≥ pyOr max_val s.max_value := by
  by_cases h : pyOr min_val s.min_value ≥ pyOr max_val s.max_value <;>
    simp [generateArray, h, isErr]

/-- The error raised by `_generate_array` is the source's `ValueError`
message. -/
theorem generateArray_error_eq (R : RandomModel σ) (s : ServiceState) (g : σ)
    (size min_val max_val seed : Option Int)
    (h : pyOr min_val s.min_value ≥ pyOr max_val s.max_value) :
    generateArray R s g size min_val max_val seed =
      Except.error "min_value must be less than max_value" := by
  simp [generateArray, h]

/-- `n` draws produce `n` values. -/
theorem drawList_length (R : RandomModel σ) (lo hi : Int) :
    ∀ (n : Nat) (g : σ), (drawList R lo hi n g).1.length = n := by
  intro n
  induction n with
  | zero => intro g; rfl
  | succ n ih => intro g; simp [drawList, ih]

/-- `sorted()` returns a non-decreasing list. -/
theorem pySorted_sorted (l : List Int) : List.Sorted (· ≤ ·) (pySorted l) :=
  List.sorted_insertionSort _ l

/-- `sorted()` preserves length. -/
theorem pySorted_length (l : List Int) : (pySorted l).length = l.length :=
  List.length_insertionSort _ l

/-- When validation passes, `_generate_array` succeeds with a sorted array
whose length is the effective size. -/
theorem generateArray_ok_props (R : RandomModel σ) (s : ServiceState) (g : σ)
    (size min_val max_val seed : Option Int)
    (h : ¬ pyOr min_val s.min_value ≥ pyOr max_val s.max_value) :
    ∃ a g2, generateArray R s g size min_val max_val seed = Except.ok (a, g2) ∧
      a.length = (pyOr size s.array_size).toNat ∧
      List.Sorted (· ≤ ·) a := by
  refine ⟨pySorted (drawList R (pyOr min_val s.min_value)
      (pyOr max_val s.max_value) (pyOr size s.array_size).toNat
      (R.seedFn (pyOr seed s.seed))).1,
    (drawList R (pyOr min_val s.min_value) (pyOr max_val s.max_value)
      (pyOr size s.array_size).toNat (R.seedFn (pyOr seed s.seed))).2,
    ?_, ?_, pySorted_sorted _⟩
  · simp [generateArray, h]
  · rw [pySorted_length, drawList_length]

/-- Every successful `_generate_array` result is the sort of the drawn
values: in particular it is sorted, of the effective size. -/
theorem generateArray_ok_inv (R : RandomModel σ) (s : ServiceState) (g : σ)
    (size min_val max_val seed : Option Int) (a : List Int) (g2 : σ)
    (hok : generateArray R s g size min_val max_val seed = Except.ok (a, g2)) :
    a.length = (pyOr size s.array_size).toNat ∧ List.Sorted (· ≤ ·) a := by
  by_cases h : pyOr min_val s.min_value ≥ pyOr max_val s.max_value
  · rw [generateArray_error_eq R s g size min_val max_val seed h] at hok
    cases hok
  · obtain ⟨a1, g1, heq, hlen, hsort⟩ :=
      generateArray_ok_props R s g size min_val max_val seed h
    rw [heq] at hok
    have h2 : a1 = a ∧ g1 = g2 := by simpa using hok
    rw [← h2.1]
    exact ⟨hlen, hsort⟩

/-- In a sorted array, values are monotone in the index (stated over
`getD`, the access used by the loop embedding). -/
theorem sorted_getD_mono (arr : List Int) (hs : List.Sorted (· ≤ ·) arr)
    (i j : Nat) (hij : i ≤ j) (hj : j < arr.length) :
    arr.getD i 0 ≤ arr.getD j 0 := by
  have hi : i < arr.length := Nat.lt_of_le_of_lt hij hj
  rw [List.getD_eq_getElem arr 0 hi, List.getD_eq_getElem arr 0 hj]
  rcases Nat.eq_or_lt_of_le hij with heq | hlt
  · subst heq
    exact le_refl _
  · have h := hs.rel_get_of_lt (a := ⟨i, hi⟩) (b := ⟨j, hj⟩) hlt
    simpa [List.get_eq_getElem] using h

/-- An in-range `getD` read is a member of the list. -/
theorem getD_mem (arr : List Int) (i : Nat) (hi : i < arr.length) :
    arr.getD i 0 ∈ arr := by
  rw [List.getD_eq_getElem arr 0 hi]
  exact List.getElem_mem hi

/-- A member of the list is an in-range `getD` read. -/
theorem mem_getD (arr : List Int) (x : Int) (hx : x ∈ arr) :
    ∃ i : Nat, i < arr.length ∧ arr.getD i 0 = x := by
  obtain ⟨n, hn⟩ := List.mem_iff_get.mp hx
  refine ⟨n.val, n.isLt, ?_⟩
  rw [List.getD_eq_getElem arr 0 n.isLt]
  simpa [List.get_eq_getElem] using hn

/-- When the window `[l, r]` is empty, the two loop invariants cover every
index, so the target is not in the array at all. -/
theorem not_mem_of_window_empty (arr : List Int) (target : Int) (l r : Int)
    (hlr : ¬ l ≤ r)
    (hlo : ∀ i : Nat, i < arr.length → (i : Int) < l → arr.getD i 0 < target)
    (hhi : ∀ i : Nat, i < arr.length → r < (i : Int) → target < arr.getD i 0) :
    target ∉ arr := by
  intro hmem
  obtain ⟨i, hi, hgi⟩ := mem_getD arr target hmem
  by_cases h : (i : Int) < l
  · have := hlo i hi h
    omega
  · have := hhi i hi (by omega)
    omega

/-- Loop-invariant correctness of the `_binary_search` loop, by induction
on the size of the remaining window: if every index left of `l` holds a
value below the target and every index right of `r` holds a value above
it, the loop either returns `-1` and the target is absent, or returns an
in-range index holding the target. -/
theorem binarySearchAux_spec (arr : List Int) (target : Int)
    (hs : List.Sorted (· ≤ ·) arr) :
    ∀ (k : Nat) (l r : Int),
      (r + 1 - l).toNat ≤ k →
      0 ≤ l → r < (arr.length : Int) →
      (∀ i : Nat, i < arr.length → (i : Int) < l → arr.getD i 0 < target) →
      (∀ i : Nat, i < arr.length → r < (i : Int) → target < arr.getD i 0) →
      (binarySearchAux arr target l r = -1 → target ∉ arr) ∧
      (binarySearchAux arr target l r ≠ -1 →
        0 ≤ binarySearchAux arr target l r ∧
        binarySearchAux arr target l r < (arr.length : Int) ∧
        arr.getD (binarySearchAux arr target l r).toNat 0 = target) := by
  intro k
  induction k with
  | zero =>
    intro l r hk h0 hr hlo hhi
    have hlr : ¬ l ≤ r := by omega
    rw [binarySearchAux, dif_neg hlr]
    exact ⟨fun _ => not_mem_of_window_empty arr target l r hlr hlo hhi,
      fun hcon => absurd rfl hcon⟩
  | succ k ih =>
    intro l r hk h0 hr hlo hhi
    by_cases hlr : l ≤ r
    · have h2 : (0 : Int) ≤ 2 := by norm_num
      have hml : l ≤ Int.fdiv (l + r) 2 := by
        rw [Int.fdiv_eq_ediv _ h2]
        omega
      have hmr : Int.fdiv (l + r) 2 ≤ r := by
        rw [Int.fdiv_eq_ediv _ h2]
        omega
      have hmnat : (Int.fdiv (l + r) 2).toNat < arr.length := by omega
      have hmcast : ((Int.fdiv (l + r) 2).toNat : Int) =
          Int.fdiv (l + r) 2 := by omega
      rw [binarySearchAux, dif_pos hlr]
      by_cases he : arr.getD (Int.fdiv (l + r) 2).toNat 0 = target
      · rw [if_pos he]
        exact ⟨fun hcon => absurd hcon (by omega),
          fun _ => ⟨by omega, by omega, he⟩⟩
      · rw [if_neg he]
        by_cases hlt : arr.getD (Int.fdiv (l + r) 2).toNat 0 < target
        · rw [if_pos hlt]
          apply ih (Int.fdiv (l + r) 2 + 1) r (by omega) (by omega) hr ?_ hhi
          intro i hi hilt
          have hile : i ≤ (Int.fdiv (l + r) 2).toNat := by omega
          have hm := sorted_getD_mono arr hs i
            (Int.fdiv (l + r) 2).toNat hile hmnat
          omega
        · rw [if_neg hlt]
          apply ih l (Int.fdiv (l + r) 2 - 1) (by omega) h0 (by omega) hlo ?_
          intro i hi higt
          have hile : (Int.fdiv (l + r) 2).toNat ≤ i := by omega
          have hm := sorted_getD_mono arr hs
            (Int.fdiv (l + r) 2).toNat i hile hi
          omega
    · rw [binarySearchAux, dif_neg hlr]
      exact ⟨fun _ => not_mem_of_window_empty arr target l r hlr hlo hhi,
        fun hcon => absurd rfl hcon⟩

/-- Correctness of `_binary_search` on the whole array: `-1` means the
target is absent, any other return value is an in-range index holding the
target. -/
theorem binarySearch_spec (arr : List Int) (target : Int)
    (hs : List.Sorted (· ≤ ·) arr) :
    (binarySearch arr target = -1 → target ∉ arr) ∧
    (binarySearch arr target ≠ -1 →
      0 ≤ binarySearch arr target ∧
      binarySearch arr target < (arr.length : Int) ∧
      arr.getD (binarySearch arr target).toNat 0 = target) := by
  have h := binarySearchAux_spec arr target hs arr.length 0
    ((arr.length : Int) - 1) (by omega) (by omega) (by omega)
    (fun i _ hneg => absurd hneg (by omega))
    (fun i hi hgt => absurd hgt (by omega))
  rw [binarySearch]
  exact h

/-- In a sorted non-empty array, the first element bounds every member
from below. -/
theorem head_le_of_mem (arr : List Int) (hne : arr ≠ [])
    (hs : List.Sorted (· ≤ ·) arr) (x : Int) (hx : x ∈ arr) :
    arr.head hne ≤ x := by
  cases arr with
  | nil => exact absurd rfl hne
  | cons a l =>
    rw [List.head_cons]
    rcases List.mem_cons.mp hx with h | h
    · exact le_of_eq h.symm
    · exact List.rel_of_sorted_cons hs x h

/-- In a sorted non-empty array, the last element bounds every member
from above. -/
theorem le_getLast_of_mem (arr : List Int) (hne : arr ≠ [])
    (hs : List.Sorted (· ≤ ·) arr) (x : Int) (hx : x ∈ arr) :
    x ≤ arr.getLast hne := by
  have hpos : 0 < arr.length := List.length_pos.mpr hne
  obtain ⟨i, hi, hgi⟩ := mem_getD arr x hx
  have hlast : arr.getLast hne = arr.getD (arr.length - 1) 0 := by
    rw [List.getD_eq_getElem arr 0 (by omega), List.getLast_eq_getElem]
  rw [hlast, ← hgi]
  exact sorted_getD_mono arr hs i (arr.length - 1) (by omega) (by omega)

/-- A target outside the first/last bounds of a sorted non-empty array
does not occur in it. -/
theorem not_mem_of_out_of_bounds (arr : List Int) (hne : arr ≠ [])
    (hs : List.Sorted (· ≤ ·) arr) (t : Int)
    (hb : t < arr.head hne ∨ t > arr.getLast hne) : t ∉ arr := by
  intro hmem
  rcases hb with hb | hb
  · have := head_le_of_mem arr hne hs t hmem
    omega
  · have := le_getLast_of_mem arr hne hs t hmem
    omega

/-- When the target is outside the bounds, the loop also answers `-1`. -/
theorem binarySearch_out_of_bounds (arr : List Int) (hne : arr ≠ [])
    (hs : List.Sorted (· ≤ ·) arr) (t : Int)
    (hb : t < arr.head hne ∨ t > arr.getLast hne) :
    binarySearch arr t = -1 := by
  by_contra hcon
  obtain ⟨h0, hlt, hgd⟩ := (binarySearch_spec arr t hs).2 hcon
  exact not_mem_of_out_of_bounds arr hne hs t hb
    (by rw [← hgd]; exact getD_mem arr _ (by omega))

/-- On a non-empty array, `search` never hits the empty-array index
error: both the short-circuit and the loop path produce an outcome. -/
theorem searchImpl_isSome (arr : List Int) (v : Int) (hne : arr ≠ []) :
    (searchImpl arr v).isSome = true := by
  rw [searchImpl, dif_neg hne]
  by_cases hb : v < arr.head hne ∨ v > arr.getLast hne
  · rw [if_pos hb]
    rfl
  · rw [if_neg hb]
    rfl

/-- The timing window after one `track_search` call: append, then evict
the front sample when the window exceeds 1000 entries. -/
theorem track_search_times (st : SearchStats) (today : String) (value : Int)
    (found : Bool) (time : ℚ) :
    (track_search st today value found time).search_times =
      if (st.search_times ++ [time]).length > 1000 then
        (st.search_times ++ [time]).drop 1
      else st.search_times ++ [time] := by
  by_cases hc : (st.search_times ++ [time]).length > 1000
  · rw [if_pos hc]
    have hc2 : 1000 < st.search_times.length + 1 := by simpa using hc
    cases found <;> simp [track_search, hc2]
  · rw [if_neg hc]
    have hc2 : ¬ 1000 < st.search_times.length + 1 := by simpa using hc
    cases found <;> simp [track_search, hc2]

/-- After any sequence of recordings, the timing window is exactly the
suffix of the recorded times past the first `n - 1000`: the most recent
`min n 1000` samples, oldest evicted first. -/
theorem recordAll_search_times (recs : List SearchRecord) :
    (recordAll recs).search_times =
      (recs.map (fun r => r.search_time)).drop (recs.length - 1000) := by
  induction recs using List.reverseRecOn with
  | nil => rfl
  | append_singleton l r ih =>
    have hfold : recordAll (l ++ [r]) =
        track_search (recordAll l) r.today r.value r.found r.search_time := by
      rw [recordAll, recordAll, List.foldl_append]
      rfl
    rw [hfold, track_search_times, ih]
    have hlapp : (l ++ [r]).length = l.length + 1 := by
      simp
    by_cases hlen : l.length < 1000
    · rw [if_neg (by simp only [List.length_append, List.length_drop,
        List.length_map, List.length_singleton]; omega)]
      have h1 : l.length - 1000 = 0 := by omega
      have h2 : (l ++ [r]).length - 1000 = 0 := by omega
      rw [h1, h2, List.drop_zero, List.drop_zero, List.map_append,
        List.map_singleton]
    · rw [if_pos (by simp only [List.length_append, List.length_drop,
        List.length_map, List.length_singleton]; omega)]
      have h1 : 1 ≤ ((l.map fun r => r.search_time).drop
          (l.length - 1000)).length := by
        simp only [List.length_drop, List.length_map]
        omega
      rw [List.drop_append_of_le_length h1, List.drop_drop, List.map_append,
        List.drop_append_of_le_length (by simp only [List.length_map]; omega)]
      have h2 : l.length - 1000 + 1 = (l ++ [r]).length - 1000 := by
        omega
      rw [h2, List.map_singleton]

/-! ### Claim theorems -/

/-- Claim C2 (counterexample): on a store holding a non-empty array but no
metadata, `get_array_source` returns `"generated"`, not `"unknown"` as the
claim states. -/
theorem get_array_source_counterexample :
    get_array_source { array := some [1], metadata := none } = "generated" ∧
    ("generated" : String) ≠ "unknown" := by
  exact ⟨rfl, by decide⟩

/-- Claim C2 (amended): `get_array_source` returns the stored metadata's
source tag when metadata is present (and `"unknown"` when the present
metadata lacks a source tag); when metadata is absent it returns
`"generated"`, regardless of whether an array is stored. -/
theorem get_array_source_spec (st : Store) :
    (∀ m s, st.metadata = some m → m.source = some s →
      get_array_source st = s) ∧
    (∀ m, st.metadata = some m → m.source = none →
      get_array_source st = "unknown") ∧
    (st.metadata = none → get_array_source st = "generated") := by
  refine ⟨?_, ?_, ?_⟩ <;> intros <;> simp_all [get_array_source]

/-- Claim C2 (witness): the amended statement evaluated on three concrete
stores, one per case. -/
theorem get_array_source_spec_witness :
    get_array_source { array := some [1, 2], metadata := some demoMetaRegen } =
      "regenerated" ∧
    get_array_source { array := some [1], metadata := some demoMetaNoSource } =
      "unknown" ∧
    get_array_source demoStoreEmpty = "generated" :=
  ⟨(get_array_source_spec _).1 demoMetaRegen _ rfl rfl,
   (get_array_source_spec _).2.1 demoMetaNoSource rfl rfl,
   (get_array_source_spec _).2.2 rfl⟩

/-- Claim C3: generation (directly or through reset) raises the
`ValueError` exactly when the effective minimum bound — the supplied
parameter, or the stored default when the parameter is absent or falsy —
is greater than or equal to the effective maximum bound. -/
theorem generate_reset_validation_iff (R : RandomModel σ) (now : String)
    (w : World σ) (size min_val max_val seed : Option Int) :
    (isErr (generateArray R w.service w.rand size min_val max_val seed) =
        true ↔
      pyOr min_val w.service.min_value ≥ pyOr max_val w.service.max_value) ∧
    (isErr (reset_array R now w size min_val max_val seed).2 = true ↔
      pyOr min_val w.service.min_value ≥ pyOr max_val w.service.max_value) := by
  refine ⟨generateArray_isErr R w.service w.rand size min_val max_val seed, ?_⟩
  have hs1 :
      pyOr min_val (pyOr min_val w.service.min_value) ≥
          pyOr max_val (pyOr max_val w.service.max_value) ↔
        pyOr min_val w.service.min_value ≥
          pyOr max_val w.service.max_value := by
    rw [pyOr_pyOr, pyOr_pyOr]
  by_cases h : pyOr min_val w.service.min_value ≥ pyOr max_val w.service.max_value
  · have hg := generateArray_error_eq R
      { array_size := pyOr size w.service.array_size,
        min_value := pyOr min_val w.service.min_value,
        max_value := pyOr max_val w.service.max_value,
        seed := pyOr seed w.service.seed } w.rand size min_val max_val seed
      (by simpa [pyOr_pyOr] using h)
    simp [reset_array, hg, isErr, h]
  · have hg : isErr (generateArray R
        { array_size := pyOr size w.service.array_size,
          min_value := pyOr min_val w.service.min_value,
          max_value := pyOr max_val w.service.max_value,
          seed := pyOr seed w.service.seed } w.rand
        size min_val max_val seed) = false := by
      rw [← Bool.not_eq_true]
      intro hc
      exact h ((hs1).mp ((generateArray_isErr _ _ _ _ _ _ _).mp hc))
    cases hgen : generateArray R
        { array_size := pyOr size w.service.array_size,
          min_value := pyOr min_val w.service.min_value,
          max_value := pyOr max_val w.service.max_value,
          seed := pyOr seed w.service.seed } w.rand
        size min_val max_val seed with
    | error e => rw [hgen] at hg; simp [isErr] at hg
    | ok p =>
      simp [reset_array, hgen, isErr, h]

/-- Claim C6: `_generate_array` reseeds the generator before drawing, so
its outcome is independent of the incoming generator state; in
particular two successive calls with the same parameters produce identical
arrays. -/
theorem generate_deterministic (R : RandomModel σ) (s : ServiceState)
    (g g' : σ) (size min_val max_val seed : Option Int) :
    (generateArray R s g size min_val max_val seed =
      generateArray R s g' size min_val max_val seed) ∧
    (∀ a1 g1 a2 g2,
      generateArray R s g size min_val max_val seed = Except.ok (a1, g1) →
      generateArray R s g1 size min_val max_val seed = Except.ok (a2, g2) →
      a1 = a2) := by
  constructor
  · rfl
  · intro a1 g1 a2 g2 h1 h2
    have h3 : (Except.ok (a1, g1) : Except String (List Int × σ)) =
        Except.ok (a2, g2) := by
      rw [← h1, ← h2]
      rfl
    have h4 : a1 = a2 ∧ g1 = g2 := by simpa using h3
    exact h4.1

/-- Claim C6 (witness): two successive calls of the generator on the demo
pseudo-random model produce the same array. -/
theorem generate_deterministic_witness :
    generateArray demoRand initState 0 (some 3) (some 1) (some 5) none =
      generateArray demoRand initState 99 (some 3) (some 1) (some 5) none ∧
    ([1, 5, 5] : List Int) = [1, 5, 5] :=
  ⟨(generate_deterministic demoRand initState 0 99
      (some 3) (some 1) (some 5) none).1,
   (generate_deterministic demoRand initState 0 45
      (some 3) (some 1) (some 5) none).2 [1, 5, 5] 45 [1, 5, 5] 45
      (by rfl) (by rfl)⟩

/-- Claim C8: when the store already holds a non-empty array, calling
`initialize_array` twice in a row returns that same array both times and
leaves the whole world — in particular the stored metadata and its source
field — unchanged: the second call performs only a load. -/
theorem initialize_idempotent (R : RandomModel σ) (n1 n2 : String)
    (w : World σ) (a : List Int)
    (ha : w.store.array = some a) (hne : a ≠ []) :
    ∃ w1 w2,
      initialize_array R n1 w = Except.ok (a, w1) ∧
      initialize_array R n2 w1 = Except.ok (a, w2) ∧
      w1.store.metadata = w.store.metadata ∧
      w2.store.metadata = w.store.metadata ∧
      w1 = w ∧ w2 = w := by
  have hemp : a.isEmpty = false := by
    cases a with
    | nil => exact absurd rfl hne
    | cons x xs => rfl
  have hone : initialize_array R n1 w = Except.ok (a, w) := by
    simp [initialize_array, ha, pyFalsyArray, hemp]
  have htwo : initialize_array R n2 w = Except.ok (a, w) := by
    simp [initialize_array, ha, pyFalsyArray, hemp]
  exact ⟨w, w, hone, htwo, rfl, rfl, rfl, rfl⟩

/-- Claim C8 (witness): idempotence evaluated on a concrete populated
store. -/
theorem initialize_idempotent_witness :
    demoWorldFull.store.array = some [1, 2] ∧
    ([1, 2] : List Int) ≠ [] ∧
    (∃ w1 w2,
      initialize_array demoRand "t1" demoWorldFull = Except.ok ([1, 2], w1) ∧
      initialize_array demoRand "t2" w1 = Except.ok ([1, 2], w2) ∧
      w1.store.metadata = demoWorldFull.store.metadata ∧
      w2.store.metadata = demoWorldFull.store.metadata ∧
      w1 = demoWorldFull ∧ w2 = demoWorldFull) :=
  ⟨rfl, by decide,
   initialize_idempotent demoRand "t1" "t2" demoWorldFull [1, 2] rfl
     (by decide)⟩

/-- Claim C10: when the effective bounds are invalid, `reset_array` raises
the `ValueError` and writes nothing to the store (array, metadata and the
generator state are untouched), but the service's stored defaults have
already been overwritten with every truthy supplied parameter. -/
theorem reset_validation_not_atomic (R : RandomModel σ) (now : String)
    (w : World σ) (size min_val max_val seed : Option Int)
    (hbad : pyOr min_val w.service.min_value ≥
      pyOr max_val w.service.max_value) :
    (reset_array R now w size min_val max_val seed).2 =
      Except.error "min_value must be less than max_value" ∧
    (reset_array R now w size min_val max_val seed).1.store = w.store ∧
    (reset_array R now w size min_val max_val seed).1.rand = w.rand ∧
    (reset_array R now w size min_val max_val seed).1.service =
      { array_size := pyOr size w.service.array_size,
        min_value := pyOr min_val w.service.min_value,
        max_value := pyOr max_val w.service.max_value,
        seed := pyOr seed w.service.seed } := by
  have hg := generateArray_error_eq R
    { array_size := pyOr size w.service.array_size,
      min_value := pyOr min_val w.service.min_value,
      max_value := pyOr max_val w.service.max_value,
      seed := pyOr seed w.service.seed } w.rand size min_val max_val seed
    (by simpa [pyOr_pyOr] using hbad)
  refine ⟨?_, ?_, ?_, ?_⟩ <;> simp [reset_array, hg]

/-- Claim C10 (witness): the claim's example `reset(size=10, min=50,
max=10)` fails, leaves the store untouched, and still updates the stored
defaults. -/
theorem reset_validation_not_atomic_witness :
    (pyOr (some 50) demoWorldEmpty.service.min_value ≥
      pyOr (some 10) demoWorldEmpty.service.max_value) ∧
    ((reset_array demoRand "t" demoWorldEmpty
        (some 10) (some 50) (some 10) none).2 =
      Except.error "min_value must be less than max_value" ∧
    (reset_array demoRand "t" demoWorldEmpty
        (some 10) (some 50) (some 10) none).1.store =
      demoWorldEmpty.store ∧
    (reset_array demoRand "t" demoWorldEmpty
        (some 10) (some 50) (some 10) none).1.rand =
      demoWorldEmpty.rand ∧
    (reset_array demoRand "t" demoWorldEmpty
        (some 10) (some 50) (some 10) none).1.service =
      { array_size := pyOr (some 10) demoWorldEmpty.service.array_size,
        min_value := pyOr (some 50) demoWorldEmpty.service.min_value,
        max_value := pyOr (some 10) demoWorldEmpty.service.max_value,
        seed := pyOr none demoWorldEmpty.service.seed }) :=
  ⟨by decide,
   reset_validation_not_atomic demoRand "t" demoWorldEmpty
     (some 10) (some 50) (some 10) none (by decide)⟩

/-- Claim C1: on a non-empty ascending-sorted array, `search` finds the
target exactly when it occurs; on success the returned index is in range
and holds the target, and on failure the index is `-1`. -/
theorem search_correct (arr : List Int) (t : Int) (hne : arr ≠ [])
    (hs : List.Sorted (· ≤ ·) arr) :
    ∃ o : SearchOutcome, searchImpl arr t = some o ∧
      (o.found = true ↔ t ∈ arr) ∧
      (o.found = true → 0 ≤ o.index ∧ o.index < (arr.length : Int) ∧
        arr.getD o.index.toNat 0 = t) ∧
      (t ∉ arr → o.index = -1) := by
  rw [searchImpl, dif_neg hne]
  by_cases hb : t < arr.head hne ∨ t > arr.getLast hne
  · rw [if_pos hb]
    have hnm : t ∉ arr := not_mem_of_out_of_bounds arr hne hs t hb
    refine ⟨_, rfl, ?_, ?_, fun _ => rfl⟩
    · simp [hnm]
    · intro hcon
      simp at hcon
  · rw [if_neg hb]
    have hspec := binarySearch_spec arr t hs
    by_cases hbs : binarySearch arr t = -1
    · have hnm := hspec.1 hbs
      refine ⟨_, rfl, ?_, ?_, fun _ => hbs⟩
      · simp [hbs, hnm]
      · intro hcon
        rw [hbs] at hcon
        simp at hcon
    · obtain ⟨h0, hlt, hgd⟩ := hspec.2 hbs
      have hmem : t ∈ arr := by
        rw [← hgd]
        exact getD_mem arr _ (by omega)
      refine ⟨_, rfl, ?_, fun _ => ⟨h0, hlt, hgd⟩, fun hnm => absurd hmem hnm⟩
      simp [hmem, bne_iff_ne, hbs]

/-- Claim C1 (witness): the correctness statement evaluated on the sorted
array `[1, 3, 5]` with target `3`. -/
theorem search_correct_witness :
    ([1, 3, 5] : List Int) ≠ [] ∧
    List.Sorted (· ≤ ·) ([1, 3, 5] : List Int) ∧
    (∃ o : SearchOutcome, searchImpl [1, 3, 5] 3 = some o ∧
      (o.found = true ↔ (3 : Int) ∈ [(1 : Int), 3, 5]) ∧
      (o.found = true → 0 ≤ o.index ∧
        o.index < (([1, 3, 5] : List Int).length : Int) ∧
        ([1, 3, 5] : List Int).getD o.index.toNat 0 = 3) ∧
      ((3 : Int) ∉ [(1 : Int), 3, 5] → o.index = -1)) :=
  ⟨by decide, by decide, search_correct [1, 3, 5] 3 (by decide) (by decide)⟩

/-- Claim C7: for non-empty sorted arrays, `search` with the boundary
short-circuit computes exactly the same outcome as the plain
binary-search loop alone — the pre-check is a pure optimization. -/
theorem precheck_pure_optimization (arr : List Int) (t : Int)
    (hne : arr ≠ []) (hs : List.Sorted (· ≤ ·) arr) :
    searchImpl arr t = searchNoPrecheck arr t := by
  rw [searchImpl, searchNoPrecheck, dif_neg hne, dif_neg hne]
  by_cases hb : t < arr.head hne ∨ t > arr.getLast hne
  · rw [if_pos hb, binarySearch_out_of_bounds arr hne hs t hb]
    rfl
  · rw [if_neg hb]

/-- Claim C7 (witness): the equivalence evaluated on a sorted array with a
target below its first element (the short-circuit path). -/
theorem precheck_pure_optimization_witness :
    ([2, 4] : List Int) ≠ [] ∧
    List.Sorted (· ≤ ·) ([2, 4] : List Int) ∧
    searchImpl [2, 4] 1 = searchNoPrecheck [2, 4] 1 :=
  ⟨by decide, by decide, precheck_pure_optimization [2, 4] 1 (by decide)
    (by decide)⟩

/-- Claim C4: every array produced by generation (used by initialize and
reset alike) is non-decreasing end-to-end, and after a successful reset
the stored array is non-decreasing. -/
theorem generated_arrays_sorted (R : RandomModel σ) (now : String)
    (w : World σ) (s : ServiceState) (g : σ)
    (size min_val max_val seed : Option Int) :
    (∀ a g2,
      generateArray R s g size min_val max_val seed = Except.ok (a, g2) →
      List.Sorted (· ≤ ·) a) ∧
    ((reset_array R now w size min_val max_val seed).2 = Except.ok () →
      ∃ a, (reset_array R now w size min_val max_val seed).1.store.array =
          some a ∧
        List.Sorted (· ≤ ·) a) := by
  constructor
  · intro a g2 hok
    exact (generateArray_ok_inv R s g size min_val max_val seed a g2 hok).2
  · intro hok
    cases hgen : generateArray R
        { array_size := pyOr size w.service.array_size,
          min_value := pyOr min_val w.service.min_value,
          max_value := pyOr max_val w.service.max_value,
          seed := pyOr seed w.service.seed } w.rand
        size min_val max_val seed with
    | error e =>
      rw [reset_array] at hok
      rw [hgen] at hok
      cases hok
    | ok p =>
      refine ⟨p.1, ?_, (generateArray_ok_inv R _ w.rand size min_val max_val
        seed p.1 p.2 (by rw [hgen])).2⟩
      rw [reset_array]
      rw [hgen]

/-- Claim C4 (witness): a concrete successful generation and a concrete
successful reset, both yielding sorted arrays. -/
theorem generated_arrays_sorted_witness :
    List.Sorted (· ≤ ·) ([1, 5, 5] : List Int) ∧
    (∃ a, (reset_array demoRand "t" demoWorldEmpty
        (some 3) (some 1) (some 5) (some 2)).1.store.array = some a ∧
      List.Sorted (· ≤ ·) a) :=
  ⟨(generated_arrays_sorted demoRand "t" demoWorldEmpty initState 0
      (some 3) (some 1) (some 5) none).1 [1, 5, 5] 45 (by rfl),
   (generated_arrays_sorted demoRand "t" demoWorldEmpty initState 0
      (some 3) (some 1) (some 5) (some 2)).2 (by rfl)⟩

/-- Claim C9: with a valid manager configuration (positive default size,
valid bounds), `get_array` succeeds with a non-empty array for every
store state — regenerating one of the default size when the store holds
no array or an empty one — and therefore `search` never hits the
unguarded `array[0]` / `array[-1]` accesses out of bounds. -/
theorem get_array_nonempty (R : RandomModel σ) (now : String) (w : World σ)
    (hsize : 1 ≤ w.service.array_size)
    (hmm : w.service.min_value < w.service.max_value) :
    ∃ a w2,
      get_array R now w = Except.ok (a, w2) ∧ a ≠ [] ∧
      (pyFalsyArray w.store.array = true →
        a.length = w.service.array_size.toNat) ∧
      (∀ value : Int, search R now w value =
          Except.ok (searchImpl a value, w2) ∧
        (searchImpl a value).isSome = true) := by
  by_cases hf : pyFalsyArray w.store.array = true
  · have hnot : ¬ pyOr none w.service.min_value ≥
        pyOr none w.service.max_value := by
      simp only [pyOr]
      omega
    obtain ⟨a, g2, heq, hlen, _⟩ :=
      generateArray_ok_props R w.service w.rand none none none none hnot
    have hlen2 : a.length = w.service.array_size.toNat := by
      simpa [pyOr] using hlen
    have hne : a ≠ [] := by
      apply List.length_pos.mp
      omega
    have hget : get_array R now w = Except.ok (a,
        { service := w.service,
          store :=
            { array := some a,
              metadata := some
                { size := a.length,
                  min_value := w.service.min_value,
                  max_value := w.service.max_value,
                  seed := w.service.seed,
                  generated_at := now,
                  source := some "generated" } },
          rand := g2 }) := by
      rw [get_array, if_pos hf, initialize_array, if_pos hf, heq]
    refine ⟨a, _, hget, hne, fun _ => hlen2, ?_⟩
    intro value
    refine ⟨?_, searchImpl_isSome a value hne⟩
    rw [search, hget]
  · obtain ⟨a, ha⟩ : ∃ a, w.store.array = some a := by
      cases harr : w.store.array with
      | none => rw [harr] at hf; simp [pyFalsyArray] at hf
      | some a => exact ⟨a, rfl⟩
    have hne : a ≠ [] := by
      intro hnil
      subst hnil
      rw [ha] at hf
      simp [pyFalsyArray] at hf
    have hget : get_array R now w = Except.ok (a, w) := by
      rw [get_array, if_neg hf, ha]
      rfl
    refine ⟨a, w, hget, hne, fun hcon => absurd hcon hf, ?_⟩
    intro value
    refine ⟨?_, searchImpl_isSome a value hne⟩
    rw [search, hget]

/-- Claim C9 (witness): the statement evaluated on the default service
configuration over an empty store. -/
theorem get_array_nonempty_witness :
    1 ≤ demoWorldEmpty.service.array_size ∧
    demoWorldEmpty.service.min_value < demoWorldEmpty.service.max_value ∧
    (∃ a w2,
      get_array demoRand "t" demoWorldEmpty = Except.ok (a, w2) ∧ a ≠ [] ∧
      (pyFalsyArray demoWorldEmpty.store.array = true →
        a.length = demoWorldEmpty.service.array_size.toNat) ∧
      (∀ value : Int, search demoRand "t" demoWorldEmpty value =
          Except.ok (searchImpl a value, w2) ∧
        (searchImpl a value).isSome = true)) :=
  ⟨by decide, by decide,
   get_array_nonempty demoRand "t" demoWorldEmpty (by decide) (by decide)⟩

/-- Claim C5: the timing window is a bounded FIFO of at most 1000
samples.  After replaying any sequence of `n` recordings from the initial
statistics, the window holds exactly the most recent `min n 1000`
recorded times (the suffix of the recorded times — oldest evicted first),
and the snapshot's average is the arithmetic mean of exactly those
samples. -/
theorem stats_window_bound (recs : List SearchRecord) (d : String) :
    (recordAll recs).search_times =
      (recs.map (fun r => r.search_time)).drop (recs.length - 1000) ∧
    (recordAll recs).search_times.length = min recs.length 1000 ∧
    (recs ≠ [] →
      (get_statistics (recordAll recs) d).average_search_time_ms =
        ((recs.map (fun r => r.search_time)).drop
            (recs.length - 1000)).sum /
          ((min recs.length 1000 : ℕ) : ℚ)) := by
  have hw := recordAll_search_times recs
  have hlen : (recordAll recs).search_times.length = min recs.length 1000 := by
    rw [hw]
    simp only [List.length_drop, List.length_map]
    omega
  refine ⟨hw, hlen, ?_⟩
  intro hne
  have hpos : 0 < recs.length := List.length_pos.mpr hne
  have hwne : ¬ (recordAll recs).search_times.isEmpty = true := by
    intro hcon
    have hnil : (recordAll recs).search_times = [] := List.isEmpty_iff.mp hcon
    rw [hnil] at hlen
    simp at hlen
    omega
  have havg : (get_statistics (recordAll recs) d).average_search_time_ms =
      (recordAll recs).search_times.sum /
        ((recordAll recs).search_times.length : ℚ) := by
    simp only [get_statistics]
    rw [if_pos hwne]
  rw [havg, hlen, hw]

/-- Claim C5 (witness): the window statement evaluated on a concrete
two-recording replay; the average is the mean of both samples. -/
theorem stats_window_bound_witness :
    (recordAll demoRecs).search_times =
      (demoRecs.map (fun r => r.search_time)).drop (demoRecs.length - 1000) ∧
    (recordAll demoRecs).search_times.length = min demoRecs.length 1000 ∧
    demoRecs ≠ [] ∧
    (get_statistics (recordAll demoRecs) "d").average_search_time_ms =
      ((demoRecs.map (fun r => r.search_time)).drop
          (demoRecs.length - 1000)).sum /
        ((min demoRecs.length 1000 : ℕ) : ℚ) ∧
    (get_statistics (recordAll demoRecs) "d").average_search_time_ms = 3 :=
  ⟨(stats_window_bound demoRecs "d").1,
   (stats_window_bound demoRecs "d").2.1,
   by decide,
   (stats_window_bound demoRecs "d").2.2 (by decide),
   by
    rw [(stats_window_bound demoRecs "d").2.2 (by decide)]
    norm_num [demoRecs]⟩

end BinarySearchApp
